import Mathlib

/-!
Verification of the audio capture and segmentation core of the `lewisia`
voice-assistant repository (`hardware_interface.py`).

The embedding models chunks at two levels:
* raw byte chunks (`List Nat`, each entry one byte), decoded to int16
  samples exactly as `np.frombuffer(-, dtype=np.int16)` does, including
  its `ValueError` when the byte length is odd;
* sample chunks (`List Int`), on which the energy computations and the
  segmenter state machine operate.

Machine floats are modelled by exact arithmetic.  Comparisons of means
against integer thresholds (`_is_silence`, stage one of
`_analyze_for_wake_word`) and of the accumulated silence duration against
`silence_duration` are implemented by the equivalent cross-multiplied
integer comparisons, so that every executable definition evaluates inside
the kernel; the rational-valued characterizations (`meanAbsAmplitude`,
`counterSeconds`) are connected to them by lemmas below.  Python's NaN
semantics on empty arrays (`np.mean([]) = nan`, and `nan < t` is `False`)
is made explicit at each comparison site.  The spectral stage of the
wake-word gate is the exact discrete Fourier transform over `ℂ`.
-/

namespace Lewisia

/-- Sum of absolute values of the int16 samples of a chunk. -/
def sumAbs (xs : List Int) : Nat :=
  (xs.map Int.natAbs).sum

/-- Mean absolute amplitude of a chunk, `np.mean(np.abs(samples))`, as an
exact rational.  Only meaningful for nonempty chunks; for the empty chunk
numpy yields NaN, which every comparison site below handles explicitly. -/
def meanAbsAmplitude (xs : List Int) : ℚ :=
  (sumAbs xs : ℚ) / (xs.length : ℚ)

/-- The comparison `np.mean(np.abs(samples)) < t` against an integer
threshold, as evaluated by numpy: on the empty chunk the mean is NaN and
the comparison is `False`; on a nonempty chunk `sum/n < t ↔ sum < t·n`
(cross-multiplied so that it evaluates by kernel reduction; the rational
form is recovered in `mean_abs_lt_iff` below). -/
def mean_abs_lt (xs : List Int) (t : Nat) : Bool :=
  if xs.length = 0 then false
  else decide (sumAbs xs < t * xs.length)

/-- AudioInterface._is_silence (hardware_interface.py lines 195-199) on the
decoded samples: silence iff the mean absolute amplitude is strictly below
the threshold, whose default in the source is 200. -/
def is_silence (samples : List Int) : Bool :=
  mean_abs_lt samples 200

/-- Decode one little-endian int16 sample from two bytes, as
`np.frombuffer` does for `dtype=np.int16`. -/
def int16OfBytes (lo hi : Nat) : Int :=
  let u : Nat := lo % 256 + 256 * (hi % 256)
  if u < 32768 then (u : Int) else (u : Int) - 65536

/-- np.frombuffer(audio_data, dtype=np.int16): decodes byte pairs to int16
samples, raising `ValueError` when the byte length is not a multiple of the
element size (2). -/
def np_frombuffer_int16 : List Nat → Except String (List Int)
  | [] => .ok []
  | [_] => .error "buffer size must be a multiple of element size"
  | lo :: hi :: rest => do
      let xs ← np_frombuffer_int16 rest
      .ok (int16OfBytes lo hi :: xs)

/-- AudioInterface._is_silence on a raw byte chunk: `np.frombuffer` may
raise on odd byte lengths, then the mean comparison is total. -/
def is_silence_bytes (audio_data : List Nat) : Except String Bool := do
  let samples ← np_frombuffer_int16 audio_data
  .ok (is_silence samples)

/-!
Segmenter state machine (`_audio_callback`, lines 136-167, and
`_process_complete_command`, lines 201-217).

State fields mirror the instance attributes of `AudioInterface`:
`wake_word_detected`, `command_in_progress`, `command_audio` (an `Option`
since the attribute is created on arming and deleted by
`_process_complete_command`), and the silence accumulator.
`silence_duration` is hard-coded to `1.0` in `AudioInterface.__init__`
(line 43); the `silence_duration` key of the config dict is never read by
the class.

The source accumulates `self.silence_counter += len(in_data) /
(self.SAMPLE_RATE * 2)` in seconds.  Since every increment has the common
denominator `2·SAMPLE_RATE`, the model stores the accumulated numerator —
the number of bytes of trailing silence — in the field `silence_counter`,
an exact reparameterization: the accumulated seconds are
`counterSeconds sample_rate bytes = bytes / (sample_rate·2)`, and the
source's test `silence_counter >= silence_duration` is `silence_reached`,
whose equivalence with `silence_duration ≤ counterSeconds …` is proved in
`silence_reached_iff` below.
-/

/-- Segmenter state: the relevant mutable attributes of `AudioInterface`.
`silence_counter` holds the accumulated trailing-silence length in bytes
(numerator of the source's seconds-valued float accumulator, see above). -/
structure SegState where
  wake_word_detected : Bool
  command_in_progress : Bool
  command_audio : Option (List Int)
  silence_counter : Nat
deriving DecidableEq

/-- State after `__init__`: no wake word pending, no command in progress,
no command buffer attribute, zero silence counter. -/
def initState : SegState :=
  ⟨false, false, none, 0⟩

/-- Value of `self.silence_duration` set in `AudioInterface.__init__`
(line 43): `1.0` seconds. -/
def silence_duration : ℚ := 1

/-- The seconds value of the silence accumulator when `bytes` bytes of
trailing silence have been seen: `bytes / (SAMPLE_RATE * 2)`. -/
def counterSeconds (sample_rate : Nat) (bytes : Nat) : ℚ :=
  (bytes : ℚ) / ((sample_rate : ℚ) * 2)

/-- Duration in seconds attributed to a chunk by the silence accumulator:
`len(in_data) / (self.SAMPLE_RATE * 2)` where `len(in_data)` counts bytes,
i.e. twice the number of int16 samples. -/
def chunkDur (sample_rate : Nat) (chunk : List Int) : ℚ :=
  (2 * chunk.length : ℚ) / ((sample_rate : ℚ) * 2)

/-- The source's end-of-command test `self.silence_counter >=
self.silence_duration`, cross-multiplied to integers so that it evaluates
by kernel reduction: `silence_duration ≤ bytes/(2·sr)` iff
`silence_duration.num · (2·sr) ≤ bytes · silence_duration.den` (for
`sr > 0`; proved as `silence_reached_iff`). -/
def silence_reached (sample_rate : Nat) (bytes : Nat) : Bool :=
  decide (silence_duration.num * (2 * sample_rate) ≤ (bytes : Int) * silence_duration.den)

/-- AudioInterface._process_complete_command: dispatches the assembled
buffer to recognition when it exists and is nonempty, then resets
`command_in_progress`, zeroes `silence_counter` and deletes
`command_audio`.  The second component is the dispatched buffer, `none`
when nothing is dispatched. -/
def process_complete_command (st : SegState) : SegState × Option (List Int) :=
  let emitted : Option (List Int) :=
    match st.command_audio with
    | some b => if b.length > 0 then some b else none
    | none => none
  (⟨st.wake_word_detected, false, none, 0⟩, emitted)

/-- AudioInterface._audio_callback for one chunk, parametric in the
wake-word detector `d` (the boolean outcome of `_analyze_for_wake_word`,
i.e. whether the call sets `wake_word_detected`; that function is verified
separately below, and only its boolean outcome feeds the segmenter).
Control flow follows the source: wake-word analysis only when no command
is in progress; arming consumes the detection flag and allocates a fresh
buffer; the chunk is then appended to the buffer (including the arming
chunk itself), and trailing silence is accumulated (`2 * chunk.length`
bytes) until it reaches `silence_duration`, at which point
`_process_complete_command` runs.  `command_audio.getD []` is a total
reading of `self.command_audio`, which in the source always exists while
`command_in_progress` (proved below as `command_audio_exists`).  The
second component is the buffer dispatched to recognition by this tick, if
any. -/
def audio_callback (d : List Int → Bool) (sample_rate : Nat)
    (st : SegState) (chunk : List Int) : SegState × Option (List Int) :=
  let wwd := if !st.command_in_progress then st.wake_word_detected || d chunk
             else st.wake_word_detected
  let armed := wwd && !st.command_in_progress
  let wwd := if armed then false else wwd
  let cip := if armed then true else st.command_in_progress
  let audio := if armed then some ([] : List Int) else st.command_audio
  if cip then
    let audio := some (audio.getD [] ++ chunk)
    if is_silence chunk then
      let sc := st.silence_counter + 2 * chunk.length
      if silence_reached sample_rate sc then
        process_complete_command ⟨wwd, cip, audio, sc⟩
      else
        (⟨wwd, cip, audio, sc⟩, none)
    else
      (⟨wwd, cip, audio, 0⟩, none)
  else
    (⟨wwd, cip, audio, st.silence_counter⟩, none)

/-- Run `_audio_callback` over a list of chunks, collecting the buffers
dispatched to recognition, in order. -/
def run_callback (d : List Int → Bool) (sample_rate : Nat)
    (st : SegState) : List (List Int) → SegState × List (List Int)
  | [] => (st, [])
  | c :: cs =>
      let step := audio_callback d sample_rate st c
      let rest := run_callback d sample_rate step.1 cs
      (rest.1, step.2.toList ++ rest.2)

/-!
Wake-word gate (`_analyze_for_wake_word`, lines 169-193).

The two-stage heuristic: (a) reject when the mean absolute amplitude is
below `self.energy_threshold` (set to 500 in `__init__`); (b) otherwise
compute `np.fft.rfft`, keep the bins whose `np.fft.rfftfreq` frequency lies
strictly between 300 and 3400 Hz, and detect iff the mean magnitude over
those bins exceeds 1000.  The transform is modelled as the exact discrete
Fourier transform over `ℂ`; `np.fft.rfft` raises `ValueError` on an empty
array, which is reachable because numpy's NaN mean of an empty chunk makes
stage (a) fall through. -/

/-- Entry `k` of `np.fft.rfft(samples)`: the discrete Fourier transform
coefficient `Σ_n samples[n] · exp(-2πi·k·n/N)`. -/
noncomputable def dftCoeff (xs : List Int) (k : ℕ) : ℂ :=
  ∑ n ∈ Finset.range xs.length,
    ((xs.getD n 0 : ℤ) : ℂ) *
      Complex.exp (-(2 * Real.pi * Complex.I * k * n) / xs.length)

/-- Whether rfft bin `k` of an `N`-sample chunk lies in the human-voice
band: `np.fft.rfftfreq(N, 1/SAMPLE_RATE)[k] = k·SAMPLE_RATE/N`, and the
source keeps `frequencies > 300 & frequencies < 3400` (both strict);
cross-multiplied to integers (`N > 0` whenever the transform is taken). -/
def voiceBand (sample_rate : Nat) (N k : ℕ) : Bool :=
  decide (300 * N < k * sample_rate) && decide (k * sample_rate < 3400 * N)

/-- Mean magnitude of the rfft coefficients inside the voice band,
`np.mean(np.abs(fft[voice_band]))`.  The rfft of an `N`-sample chunk has
bins `0 … N/2`.  When no bin is in band numpy yields NaN and the
comparison against 1000 is `False`; here the empty mean is `0/0 = 0`,
giving the same verdict at the single comparison site below. -/
noncomputable def voiceEnergy (sample_rate : Nat) (xs : List Int) : ℝ :=
  let ks := (List.range (xs.length / 2 + 1)).filter (voiceBand sample_rate xs.length)
  (ks.map (fun k => Complex.abs (dftCoeff xs k))).sum / (ks.length : ℝ)

/-- Outcome of `_analyze_for_wake_word`: whether `wake_word_detected` was
set, and whether the spectral stage (`np.fft.rfft`) was evaluated. -/
structure WakeAnalysis where
  detected : Bool
  fft_computed : Bool
deriving DecidableEq

/-- AudioInterface._analyze_for_wake_word: stage (a) rejects on energy
below 500 without touching the transform; stage (b) computes the rfft
(raising on an empty array) and detects iff the in-band mean magnitude
exceeds 1000. -/
noncomputable def analyze_for_wake_word (sample_rate : Nat) (samples : List Int) :
    Except String WakeAnalysis :=
  if mean_abs_lt samples 500 then .ok ⟨false, false⟩
  else if samples.length = 0 then .error "Invalid number of FFT data points"
  else .ok ⟨@decide (voiceEnergy sample_rate samples > 1000)
              (Classical.propDecidable _), true⟩

/-- _analyze_for_wake_word on a raw byte chunk: `np.frombuffer` decoding
first, then the two-stage gate. -/
noncomputable def analyze_bytes (sample_rate : Nat) (audio_data : List Nat) :
    Except String WakeAnalysis := do
  let samples ← np_frombuffer_int16 audio_data
  analyze_for_wake_word sample_rate samples

/-!
Recognition dispatch (`_process_command_async`, lines 219-232) and the
registered handler (`set_command_callback`, lines 426-428).

`_process_command_async` runs `speech_to_text` inside a catch-all
`try/except`; on non-empty, non-whitespace text it only logs the
recognized command — the `self.callback(text)` invocation is absent from
the source (it appears only inside a comment at line 229).  The model
returns the list of handler invocations together with the informational
log lines, so the absence of any handler call is visible. -/

/-- Truthiness of `text and text.strip()` for a present string: the text
is non-empty and contains some non-whitespace character. -/
def textTruthy (text : List Char) : Bool :=
  !text.isEmpty && text.any (fun c => !c.isWhitespace)

/-- AudioInterface._process_command_async, given the outcome of the
`speech_to_text` call (`.error` models a raised exception, caught by the
catch-all; text is a list of characters).  First component: texts the
registered command handler is invoked with.  Second component: log
lines. -/
def process_command_async (stt_result : Except String (Option (List Char))) :
    List (List Char) × List (List Char) :=
  match stt_result with
  | .error e => ([], ["Erro ao processar comando: ".toList ++ e.toList])
  | .ok none => ([], [])
  | .ok (some text) =>
      if textTruthy text then ([], ["Comando reconhecido: ".toList ++ text])
      else ([], [])

/-!
Backend probing and the capture loop (`initialize`, lines 46-96, and
`_continuous_capture`, lines 98-113). -/

/-- The audio backends probed by `AudioInterface.initialize`, in order. -/
inductive Backend
  | pyaudio
  | sounddevice
  | alsa
deriving DecidableEq

/-- Result of `AudioInterface.initialize`: which backend was selected, if
any, and whether simulator mode was entered. -/
structure InitResult where
  simulator_mode : Bool
  backend : Option Backend
deriving DecidableEq

/-- AudioInterface.initialize, given which backend imports succeed: probes
`pyaudio`, `sounddevice`, `alsa` in order, each `ImportError` caught and
the next tried; when none is available, simulator mode is set.  The
enclosing catch-all `except` also falls back to simulator mode, so the
method is total: it never raises. -/
def init_audio (avail : Backend → Bool) : InitResult :=
  match [Backend.pyaudio, Backend.sounddevice, Backend.alsa].find? avail with
  | some b => ⟨false, some b⟩
  | none => ⟨true, none⟩

/-- AudioInterface._continuous_capture: in simulator mode the thread logs
and returns, producing no chunks; otherwise it drives the backend stream,
whose delivered chunks (or raised exception) are `backend_run`.  Any
exception is caught and logged, never propagated — the result is the list
of chunks actually pushed through `_audio_callback`. -/
def continuous_capture (r : InitResult)
    (backend_run : Except String (List (List Int))) : List (List Int) :=
  if r.simulator_mode then []
  else
    match backend_run with
    | .ok chunks => chunks
    | .error _ => []

/-!
Bridging lemmas: the cross-multiplied integer comparisons used by the
executable definitions agree with the rational-valued means and durations
they stand for.
-/

/-- On a nonempty chunk, `mean_abs_lt` is exactly the comparison of the
rational mean absolute amplitude against the threshold. -/
lemma mean_abs_lt_iff (xs : List Int) (t : Nat) (hxs : xs ≠ []) :
    mean_abs_lt xs t = true ↔ meanAbsAmplitude xs < t := by
  have hn : xs.length ≠ 0 := fun h => hxs (List.length_eq_zero.mp h)
  have hn' : (0 : ℚ) < xs.length := by
    exact_mod_cast Nat.pos_of_ne_zero hn
  rw [mean_abs_lt, if_neg hn, decide_eq_true_eq, meanAbsAmplitude, div_lt_iff₀ hn']
  exact_mod_cast Iff.rfl

/-- The accumulated seconds of `a + b` bytes split additively. -/
lemma counterSeconds_add (sr a b : Nat) :
    counterSeconds sr (a + b) = counterSeconds sr a + counterSeconds sr b := by
  rw [counterSeconds, counterSeconds, counterSeconds]
  push_cast
  rw [add_div]

/-- A chunk's duration is the seconds value of its byte length. -/
lemma chunkDur_eq (sr : Nat) (c : List Int) :
    chunkDur sr c = counterSeconds sr (2 * c.length) := by
  rw [chunkDur, counterSeconds]
  push_cast
  rfl

/-- For a positive sample rate, `silence_reached` is exactly the source's
test `silence_counter >= silence_duration` on the seconds value of the
accumulator. -/
lemma silence_reached_iff (sr bytes : Nat) (hsr : 0 < sr) :
    silence_reached sr bytes = true ↔ silence_duration ≤ counterSeconds sr bytes := by
  have h2 : (0 : ℚ) < (sr : ℚ) * 2 := by positivity
  rw [silence_reached, decide_eq_true_eq, counterSeconds, silence_duration, le_div_iff₀ h2]
  show (1 : ℤ) * (2 * sr) ≤ bytes * 1 ↔ (1 : ℚ) * (sr * 2) ≤ bytes
  rw [one_mul, mul_one, one_mul]
  constructor
  · intro h
    have : ((2 * sr : ℤ) : ℚ) ≤ ((bytes : ℤ) : ℚ) := by exact_mod_cast h
    push_cast at this ⊢
    linarith
  · intro h
    have : (2 * (sr : ℚ)) ≤ bytes := by linarith
    exact_mod_cast this

/-!
Segmenter invariant: from the initial state, `command_audio` exists
exactly while a command is in progress, the wake-word flag is always
consumed within the tick that set it, and the silence counter is zero
while idle. -/

/-- States of the segmenter reachable from `initState`. -/
def SegInv (st : SegState) : Prop :=
  st.wake_word_detected = false ∧
  (st.command_in_progress = true ↔ st.command_audio.isSome = true) ∧
  (st.command_in_progress = false → st.silence_counter = 0)

lemma segInv_init : SegInv initState := by
  refine ⟨rfl, by simp [initState], fun _ => rfl⟩

lemma segInv_step (d : List Int → Bool) (sr : Nat) (st : SegState) (c : List Int)
    (h : SegInv st) : SegInv (audio_callback d sr st c).1 := by
  obtain ⟨hw, ha, hs⟩ := h
  rcases hcip : st.command_in_progress with _ | _
  · have hnone : st.command_audio = none := by
      rcases haud : st.command_audio with _ | b
      · rfl
      · exact absurd (ha.mpr (by simp [haud])) (by simp [hcip])
    rcases hd : d c with _ | _
    · simp [audio_callback, hcip, hw, hd, SegInv, hs hcip, hnone]
    · simp only [audio_callback, hcip, hw, hd, Bool.not_false, if_true, Bool.false_or,
        Bool.true_and, if_false]
      by_cases hsil : is_silence c = true
      · by_cases hr : silence_reached sr (st.silence_counter + 2 * c.length) = true
        · simp [hsil, hr, process_complete_command, SegInv]
        · simp [hsil, hr, SegInv]
      · simp [hsil, SegInv]
  · have haud : st.command_audio.isSome = true := ha.mp hcip
    simp only [audio_callback, hcip, Bool.not_true, if_false, Bool.and_false, if_true]
    by_cases hsil : is_silence c = true
    · by_cases hr : silence_reached sr (st.silence_counter + 2 * c.length) = true
      · simp [hsil, hr, hw, process_complete_command, SegInv]
      · simp [hsil, hr, hw, SegInv]
    · simp [hsil, hw, SegInv]

/-- The reading `command_audio.getD []` in `audio_callback` is justified:
whenever a command is in progress in a reachable state, the buffer
attribute exists. -/
lemma command_audio_exists (st : SegState) (h : SegInv st)
    (hc : st.command_in_progress = true) : ∃ b, st.command_audio = some b := by
  have := h.2.1.mp hc
  exact Option.isSome_iff_exists.mp this

/-!
Step lemmas: closed forms of `audio_callback` on the two state shapes that
arise along a run — capturing with an existing buffer, and idle. -/

/-- One tick while capturing: the wake-word analysis is skipped, the chunk
is appended, and the silence accumulator advances, resets, or completes
the command. -/
lemma step_capturing (d : List Int → Bool) (sr : Nat) (b : List Int) (c0 : Nat)
    (c : List Int) :
    audio_callback d sr ⟨false, true, some b, c0⟩ c =
      if is_silence c then
        if silence_reached sr (c0 + 2 * c.length) then
          (⟨false, false, none, 0⟩,
            if (b ++ c).length > 0 then some (b ++ c) else none)
        else (⟨false, true, some (b ++ c), c0 + 2 * c.length⟩, none)
      else (⟨false, true, some (b ++ c), 0⟩, none) := by
  by_cases hsil : is_silence c = true
  · by_cases hr : silence_reached sr (c0 + 2 * c.length) = true
    · simp [audio_callback, hsil, hr, process_complete_command]
    · simp [audio_callback, hsil, hr]
  · simp [audio_callback, hsil]

/-- One tick while idle: a detection arms capture and the arming chunk
itself is appended to the fresh buffer; otherwise the state is
unchanged. -/
lemma step_idle (d : List Int → Bool) (sr : Nat) (c : List Int) :
    audio_callback d sr ⟨false, false, none, 0⟩ c =
      if d c then
        if is_silence c then
          if silence_reached sr (2 * c.length) then
            (⟨false, false, none, 0⟩, if c.length > 0 then some c else none)
          else (⟨false, true, some c, 2 * c.length⟩, none)
        else (⟨false, true, some c, 0⟩, none)
      else (⟨false, false, none, 0⟩, none) := by
  by_cases hd : d c = true
  · by_cases hsil : is_silence c = true
    · by_cases hr : silence_reached sr (0 + 2 * c.length) = true
      · simp only [Nat.zero_add] at hr
        simp [audio_callback, hd, hsil, hr, process_complete_command]
      · simp only [Nat.zero_add] at hr
        simp [audio_callback, hd, hsil, hr]
    · simp [audio_callback, hd, hsil]
  · simp [audio_callback, hd]

/-- C2.  For every chunk processed while a command capture is in progress,
the segmenter never allocates a second buffer and never re-arms: the open
buffer either grows by exactly the current chunk (no emission this tick)
or is closed by emission (after which no buffer exists), and the wake-word
flag is untouched because `_analyze_for_wake_word` is not even consulted
while `command_in_progress`. -/
theorem capture_step_no_second_buffer (d : List Int → Bool) (sr : Nat)
    (st : SegState) (c b : List Int)
    (hcip : st.command_in_progress = true) (hbuf : st.command_audio = some b) :
    ((audio_callback d sr st c).1.command_in_progress = true ∧
      (audio_callback d sr st c).1.command_audio = some (b ++ c) ∧
      (audio_callback d sr st c).2 = none ∧
      (audio_callback d sr st c).1.wake_word_detected = st.wake_word_detected) ∨
    ((audio_callback d sr st c).1.command_in_progress = false ∧
      (audio_callback d sr st c).1.command_audio = none ∧
      (audio_callback d sr st c).1.wake_word_detected = st.wake_word_detected) := by
  by_cases hsil : is_silence c = true
  · by_cases hr : silence_reached sr (st.silence_counter + 2 * c.length) = true
    · right
      simp [audio_callback, hcip, hbuf, hsil, hr, process_complete_command]
    · left
      simp [audio_callback, hcip, hbuf, hsil, hr]
  · left
    simp [audio_callback, hcip, hbuf, hsil]

/-- Witness for C2: a concrete capturing state stepped on a concrete
speech chunk. -/
theorem capture_step_no_second_buffer_witness :
    ((audio_callback (fun _ => true) 16000 ⟨false, true, some [1], 0⟩ [300]).1.command_in_progress = true ∧
      (audio_callback (fun _ => true) 16000 ⟨false, true, some [1], 0⟩ [300]).1.command_audio = some ([1] ++ [300]) ∧
      (audio_callback (fun _ => true) 16000 ⟨false, true, some [1], 0⟩ [300]).2 = none ∧
      (audio_callback (fun _ => true) 16000 ⟨false, true, some [1], 0⟩ [300]).1.wake_word_detected =
        SegState.wake_word_detected ⟨false, true, some [1], 0⟩) ∨
    ((audio_callback (fun _ => true) 16000 ⟨false, true, some [1], 0⟩ [300]).1.command_in_progress = false ∧
      (audio_callback (fun _ => true) 16000 ⟨false, true, some [1], 0⟩ [300]).1.command_audio = none ∧
      (audio_callback (fun _ => true) 16000 ⟨false, true, some [1], 0⟩ [300]).1.wake_word_detected =
        SegState.wake_word_detected ⟨false, true, some [1], 0⟩) :=
  capture_step_no_second_buffer (fun _ => true) 16000 ⟨false, true, some [1], 0⟩ [300] [1] rfl rfl

/-- C10.  `_process_complete_command` always fully resets the segmenter —
`command_in_progress` cleared, silence counter zeroed, `command_audio`
deleted — whether or not the assembled buffer was dispatched. -/
theorem process_complete_resets (st : SegState) :
    (process_complete_command st).1.command_in_progress = false ∧
    (process_complete_command st).1.silence_counter = 0 ∧
    (process_complete_command st).1.command_audio = none := by
  exact ⟨rfl, rfl, rfl⟩

/-- Counterexample for C4: the scenario the claim describes — an
immediately wake-word-triggering chunk followed by immediately qualifying
silence, with zero speech chunks in between — does not produce an empty
CommandBuffer under the source: the buffer contains the wake chunk's and
the silence chunk's samples (the callback appends the arming chunk and
the silence chunk before the end-of-command check), is nonempty, and is
dispatched rather than dropped. -/
theorem immediate_wake_silence_dispatched :
    run_callback (fun c => c == [600]) 1 initState [[600], [0]]
      = (initState, [[600, 0]]) ∧ ([600, 0] : List Int) ≠ [] := by
  exact ⟨by decide, by decide⟩

/-- C4 (amended).  A CommandBuffer that is actually empty (or absent) at
emission time is dropped by `_process_complete_command` without dispatch,
and the state is reset; however a buffer assembled from an immediate
wake-word detection plus immediately qualifying silence is not empty — it
contains the wake and silence chunks' bytes — and is dispatched (see the
counterexample above). -/
theorem empty_buffer_dropped (st : SegState)
    (h : st.command_audio = some [] ∨ st.command_audio = none) :
    (process_complete_command st).2 = none ∧
    (process_complete_command st).1.command_in_progress = false ∧
    (process_complete_command st).1.command_audio = none ∧
    (process_complete_command st).1.silence_counter = 0 := by
  rcases h with h | h <;> simp [process_complete_command, h]

/-- Witness for C4 (amended): an emission-time state whose buffer is the
empty byte sequence. -/
theorem empty_buffer_dropped_witness :
    (process_complete_command ⟨false, true, some [], 3⟩).2 = none ∧
    (process_complete_command ⟨false, true, some [], 3⟩).1.command_in_progress = false ∧
    (process_complete_command ⟨false, true, some [], 3⟩).1.command_audio = none ∧
    (process_complete_command ⟨false, true, some [], 3⟩).1.silence_counter = 0 :=
  empty_buffer_dropped ⟨false, true, some [], 3⟩ (Or.inl rfl)

/-- Counterexample for C5: the configured `silence_duration` is `1.0`
seconds, not `1.5` — `AudioInterface.__init__` hard-codes `1.0` and never
reads the config key — and a concrete capturing state is emitted once the
accumulator reaches `1.0` seconds, strictly before `1.5` seconds. -/
theorem silence_emission_at_one_second :
    silence_duration ≠ 3 / 2 ∧
    audio_callback (fun _ => false) 1 ⟨false, true, some [300], 0⟩ [0]
      = (initState, some [300, 0]) ∧
    counterSeconds 1 (0 + 2 * ([0] : List Int).length) = 1 ∧ (1 : ℚ) < 3 / 2 := by
  refine ⟨by norm_num [silence_duration], by decide, ?_, by norm_num⟩
  norm_num [counterSeconds]

/-- C5 (amended).  While a command is being captured, the silence
accumulator resets to zero on a speech chunk and advances by exactly the
chunk's duration on a silence chunk; the buffer is emitted and the state
returns to idle exactly when the accumulated trailing silence reaches the
configured `silence_duration`, whose default is `1.0` seconds (not 1.5). -/
theorem silence_accumulator_spec (d : List Int → Bool) (sr : Nat)
    (st : SegState) (c b : List Int) (hsr : 0 < sr)
    (hcip : st.command_in_progress = true) (hbuf : st.command_audio = some b) :
    (is_silence c = false →
      (audio_callback d sr st c).1.silence_counter = 0 ∧
      (audio_callback d sr st c).2 = none ∧
      (audio_callback d sr st c).1.command_in_progress = true) ∧
    (is_silence c = true →
      (silence_duration ≤ counterSeconds sr st.silence_counter + chunkDur sr c →
        (audio_callback d sr st c).1.command_in_progress = false ∧
        (audio_callback d sr st c).1.silence_counter = 0 ∧
        (b ++ c ≠ [] → (audio_callback d sr st c).2 = some (b ++ c))) ∧
      (counterSeconds sr st.silence_counter + chunkDur sr c < silence_duration →
        (audio_callback d sr st c).2 = none ∧
        (audio_callback d sr st c).1.command_in_progress = true ∧
        counterSeconds sr (audio_callback d sr st c).1.silence_counter
          = counterSeconds sr st.silence_counter + chunkDur sr c)) ∧
    silence_duration = 1 := by
  have hsum : counterSeconds sr (st.silence_counter + 2 * c.length)
      = counterSeconds sr st.silence_counter + chunkDur sr c := by
    rw [counterSeconds_add, chunkDur_eq]
  refine ⟨?_, ?_, rfl⟩
  · intro hsil
    simp [audio_callback, hcip, hbuf, hsil]
  · intro hsil
    constructor
    · intro hdur
      have hr : silence_reached sr (st.silence_counter + 2 * c.length) = true := by
        rw [silence_reached_iff _ _ hsr, hsum]
        exact hdur
      have hlen : (b ++ c ≠ []) → (b ++ c).length > 0 := by
        intro h
        exact List.length_pos.mpr h
      refine ⟨?_, ?_, ?_⟩
      · simp [audio_callback, hcip, hbuf, hsil, hr, process_complete_command]
      · simp [audio_callback, hcip, hbuf, hsil, hr, process_complete_command]
      · intro h
        simp only [audio_callback, hcip, hbuf, hsil, hr, process_complete_command,
          Bool.not_true, if_false, Bool.and_false, if_true, Option.getD_some, if_pos (hlen h)]
        simp [hlen h]
        intro hb hc
        exact h (by simp [hb, hc])
    · intro hdur
      have hr : silence_reached sr (st.silence_counter + 2 * c.length) = false := by
        rw [Bool.eq_false_iff]
        intro hcontra
        rw [silence_reached_iff _ _ hsr, hsum] at hcontra
        exact absurd hdur (not_lt.mpr hcontra)
      refine ⟨?_, ?_, ?_⟩
      · simp [audio_callback, hcip, hbuf, hsil, hr]
      · simp [audio_callback, hcip, hbuf, hsil, hr]
      · rw [← hsum]
        congr 1
        simp [audio_callback, hcip, hbuf, hsil, hr]

/-- Witness for C5 (amended): a concrete capturing state at sample rate 1
with a one-sample silence chunk. -/
theorem silence_accumulator_spec_witness :
    (is_silence [0] = false →
      (audio_callback (fun _ => false) 1 ⟨false, true, some [300], 0⟩ [0]).1.silence_counter = 0 ∧
      (audio_callback (fun _ => false) 1 ⟨false, true, some [300], 0⟩ [0]).2 = none ∧
      (audio_callback (fun _ => false) 1 ⟨false, true, some [300], 0⟩ [0]).1.command_in_progress = true) ∧
    (is_silence [0] = true →
      (silence_duration ≤ counterSeconds 1 (SegState.silence_counter ⟨false, true, some [300], 0⟩)
          + chunkDur 1 [0] →
        (audio_callback (fun _ => false) 1 ⟨false, true, some [300], 0⟩ [0]).1.command_in_progress = false ∧
        (audio_callback (fun _ => false) 1 ⟨false, true, some [300], 0⟩ [0]).1.silence_counter = 0 ∧
        (([300] : List Int) ++ [0] ≠ [] →
          (audio_callback (fun _ => false) 1 ⟨false, true, some [300], 0⟩ [0]).2
            = some (([300] : List Int) ++ [0]))) ∧
      (counterSeconds 1 (SegState.silence_counter ⟨false, true, some [300], 0⟩)
          + chunkDur 1 [0] < silence_duration →
        (audio_callback (fun _ => false) 1 ⟨false, true, some [300], 0⟩ [0]).2 = none ∧
        (audio_callback (fun _ => false) 1 ⟨false, true, some [300], 0⟩ [0]).1.command_in_progress = true ∧
        counterSeconds 1 (audio_callback (fun _ => false) 1 ⟨false, true, some [300], 0⟩ [0]).1.silence_counter
          = counterSeconds 1 (SegState.silence_counter ⟨false, true, some [300], 0⟩) + chunkDur 1 [0])) ∧
    silence_duration = 1 :=
  silence_accumulator_spec (fun _ => false) 1 ⟨false, true, some [300], 0⟩ [0] [300]
    (by decide) rfl rfl

/-- C6.  The voice-activity classifier returns silence iff the chunk's
mean absolute amplitude is strictly below the threshold, whose default is
200 on the 16-bit scale; a chunk whose mean equals the threshold exactly
is classified as speech. -/
theorem vad_silence_iff (samples : List Int) (hne : samples ≠ []) :
    (is_silence samples = true ↔ meanAbsAmplitude samples < 200) ∧
    (meanAbsAmplitude samples = 200 → is_silence samples = false) := by
  have h := mean_abs_lt_iff samples 200 hne
  refine ⟨h, ?_⟩
  intro heq
  rw [Bool.eq_false_iff]
  intro hcontra
  have hlt := h.mp hcontra
  rw [heq] at hlt
  exact absurd hlt (lt_irrefl _)

/-- Witness for C6: a concrete one-sample chunk of amplitude 100. -/
theorem vad_silence_iff_witness :
    (is_silence [100] = true ↔ meanAbsAmplitude [100] < 200) ∧
    (meanAbsAmplitude [100] = 200 → is_silence [100] = false) :=
  vad_silence_iff [100] (by decide)

/-- C3.  The recognition dispatch never invokes the registered command
handler: on every outcome of the speech-to-text call the invocation list
is empty, and in particular a non-empty transcription `"oi"` is only
logged — contradicting the documented contract of `set_command_callback`
and the registration in `main.py`, because the `self.callback(text)` call
exists only as a comment in `_process_command_async`. -/
theorem recognized_text_no_handler_call :
    (∀ r, (process_command_async r).1 = []) ∧
    process_command_async (.ok (some "oi".toList))
      = ([], ["Comando reconhecido: oi".toList]) := by
  constructor
  · intro r
    rcases r with e | t
    · rfl
    · rcases t with _ | t
      · rfl
      · by_cases h : textTruthy t = true <;> simp [process_command_async, h]
  · decide

/-- Total byte length of a list of sample chunks (two bytes per int16
sample). -/
def bytesLen (zs : List (List Int)) : Nat :=
  (zs.map (fun z => 2 * z.length)).sum

lemma bytesLen_nil : bytesLen [] = 0 := rfl

lemma bytesLen_cons (z : List Int) (zs : List (List Int)) :
    bytesLen (z :: zs) = 2 * z.length + bytesLen zs := by
  simp [bytesLen]

/-- One unfolding of `run_callback` on a nonempty stream. -/
lemma run_cons (d : List Int → Bool) (sr : Nat) (st : SegState)
    (c : List Int) (cs : List (List Int)) :
    run_callback d sr st (c :: cs)
      = ((run_callback d sr (audio_callback d sr st c).1 cs).1,
         (audio_callback d sr st c).2.toList
           ++ (run_callback d sr (audio_callback d sr st c).1 cs).2) := rfl

/-- Running a capturing state over a block of silence chunks whose
accumulated bytes first reach the threshold exactly at the last chunk:
every chunk is appended, then the buffer is emitted and the segmenter
returns to the initial state. -/
lemma capture_silence_run (d : List Int → Bool) (sr : Nat) :
    ∀ (zs : List (List Int)) (b : List Int) (c0 : Nat), zs ≠ [] →
    (∀ z ∈ zs, is_silence z = true) →
    (∀ i < zs.length, silence_reached sr (c0 + bytesLen (zs.take i)) = false) →
    silence_reached sr (c0 + bytesLen zs) = true →
    b ≠ [] →
    run_callback d sr ⟨false, true, some b, c0⟩ zs = (initState, [b ++ zs.flatten])
  | [], _, _, hne, _, _, _, _ => absurd rfl hne
  | [z], b, c0, _, hsil, _, hge, hb => by
      have hz : is_silence z = true := hsil z (by simp)
      have hge' : silence_reached sr (c0 + 2 * z.length) = true := by
        simpa [bytesLen_cons, bytesLen_nil] using hge
      have hbpos : 0 < b.length := List.length_pos.mpr hb
      have hstep : audio_callback d sr ⟨false, true, some b, c0⟩ z
          = (⟨false, false, none, 0⟩, some (b ++ z)) := by
        simp [step_capturing, hz, hge', hbpos]
      rw [run_cons, hstep]
      simp [run_callback, initState]
  | z :: z' :: zs, b, c0, _, hsil, hlt, hge, hb => by
      have hz : is_silence z = true := hsil z (by simp)
      have h1 : silence_reached sr (c0 + 2 * z.length) = false := by
        have := hlt 1 (by simp)
        simpa [bytesLen_cons, bytesLen_nil] using this
      have hrec := capture_silence_run d sr (z' :: zs) (b ++ z) (c0 + 2 * z.length)
        (by simp)
        (fun x hx => hsil x (List.mem_cons_of_mem z hx))
        (by
          intro i hi
          have := hlt (i + 1) (by simpa using Nat.succ_lt_succ hi)
          simpa [bytesLen_cons, Nat.add_assoc] using this)
        (by simpa [bytesLen_cons, Nat.add_assoc] using hge)
        (by simp [hb])
      have hstep : audio_callback d sr ⟨false, true, some b, c0⟩ z
          = (⟨false, true, some (b ++ z), c0 + 2 * z.length⟩, none) := by
        simp [step_capturing, hz, h1]
      rw [run_cons, hstep]
      simp only [Option.toList_none, List.nil_append, hrec]
      simp [List.append_assoc]

/-- Counterexample for C1: a concrete wake-triggering chunk, three speech
chunks and one qualifying silence chunk.  The emitted CommandBuffer is the
wake chunk followed by the speech chunks and the silence chunk — not the
concatenation of the three speech chunks alone, because `_audio_callback`
appends the arming chunk and every silence chunk before the end-of-command
check fires. -/
theorem segmenter_includes_wake_and_silence_bytes :
    run_callback (fun c => c == [600]) 1 initState [[600], [300], [301], [302], [0]]
      = (initState, [[600, 300, 301, 302, 0]]) ∧
    ([600, 300, 301, 302, 0] : List Int) ≠ [300] ++ [301] ++ [302] := by
  exact ⟨by decide, by decide⟩

/-- C1 (amended).  For a stream consisting of a wake-word-triggering
speech chunk, three speech chunks, and a block of silence chunks whose
accumulated duration first reaches `silence_duration` at its last chunk,
the segmenter emits exactly one CommandBuffer and returns to the initial
(idle) state; the buffer's bytes are the wake chunk's, the three speech
chunks', and all the silence chunks' bytes, in stream order. -/
theorem run_emits_full_capture (d : List Int → Bool) (sr : Nat)
    (w s1 s2 s3 : List Int) (zs : List (List Int))
    (hdw : d w = true) (hsw : is_silence w = false) (hwne : w ≠ [])
    (hs1 : is_silence s1 = false) (hs2 : is_silence s2 = false)
    (hs3 : is_silence s3 = false)
    (hzs : zs ≠ []) (hsil : ∀ z ∈ zs, is_silence z = true)
    (hlt : ∀ i < zs.length, silence_reached sr (bytesLen (zs.take i)) = false)
    (hge : silence_reached sr (bytesLen zs) = true) :
    run_callback d sr initState (w :: s1 :: s2 :: s3 :: zs)
      = (initState, [w ++ s1 ++ s2 ++ s3 ++ zs.flatten]) := by
  have h1 : audio_callback d sr initState w = (⟨false, true, some w, 0⟩, none) := by
    simp [initState, step_idle, hdw, hsw]
  have h2 : audio_callback d sr ⟨false, true, some w, 0⟩ s1
      = (⟨false, true, some (w ++ s1), 0⟩, none) := by
    simp [step_capturing, hs1]
  have h3 : audio_callback d sr ⟨false, true, some (w ++ s1), 0⟩ s2
      = (⟨false, true, some (w ++ s1 ++ s2), 0⟩, none) := by
    simp [step_capturing, hs2]
  have h4 : audio_callback d sr ⟨false, true, some (w ++ s1 ++ s2), 0⟩ s3
      = (⟨false, true, some (w ++ s1 ++ s2 ++ s3), 0⟩, none) := by
    simp [step_capturing, hs3]
  have hrun := capture_silence_run d sr zs (w ++ s1 ++ s2 ++ s3) 0 hzs hsil
    (by simpa using hlt) (by simpa using hge) (by simp [hwne])
  rw [run_cons, h1]
  rw [run_cons, h2]
  rw [run_cons, h3]
  rw [run_cons, h4]
  simp only [Option.toList_none, List.nil_append, hrun]

/-- Witness for C1 (amended): the concrete five-chunk stream at sample
rate 1, whose single silence chunk supplies a full second of silence. -/
theorem run_emits_full_capture_witness :
    run_callback (fun c => c == [600]) 1 initState [[600], [300], [301], [302], [0]]
      = (initState, [([600] : List Int) ++ [300] ++ [301] ++ [302] ++ List.flatten [[0]]]) :=
  run_emits_full_capture (fun c => c == [600]) 1 [600] [300] [301] [302] [[0]]
    (by decide) (by decide) (by decide) (by decide) (by decide) (by decide)
    (by decide) (by decide) (by decide) (by decide)

/-- C7.  The wake-word gate signals detection iff the chunk passes both
stages: mean absolute amplitude at least the energy threshold 500, and
in-band mean rfft magnitude strictly above 1000; when stage one fails, the
gate rejects without evaluating the transform. -/
theorem wake_gate_two_stage (sr : Nat) (samples : List Int) (w : WakeAnalysis)
    (h : analyze_for_wake_word sr samples = .ok w) :
    (w.detected = true ↔
      (500 ≤ meanAbsAmplitude samples ∧ voiceEnergy sr samples > 1000)) ∧
    (meanAbsAmplitude samples < 500 → w.fft_computed = false) := by
  by_cases hE : mean_abs_lt samples 500 = true
  · have hne : samples ≠ [] := by
      intro hnil
      rw [hnil] at hE
      exact absurd hE (by decide)
    have hlt : meanAbsAmplitude samples < 500 := by
      have := (mean_abs_lt_iff samples 500 hne).mp hE
      exact_mod_cast this
    have hw : w = ⟨false, false⟩ := by
      rw [analyze_for_wake_word, if_pos hE] at h
      exact (Except.ok.injEq _ _).mp h.symm
    subst hw
    refine ⟨?_, fun _ => rfl⟩
    simp only [show (⟨false, false⟩ : WakeAnalysis).detected = false from rfl]
    constructor
    · intro hfalse
      exact absurd hfalse (by decide)
    · rintro ⟨hge, -⟩
      exact absurd hlt (not_lt.mpr (by exact_mod_cast hge))
  · rcases hlen : samples.length with _ | n
    · rw [analyze_for_wake_word, if_neg hE, if_pos hlen] at h
      exact absurd h (by simp)
    · have hlen' : samples.length ≠ 0 := by omega
      have hne : samples ≠ [] := by
        intro hnil
        rw [hnil] at hlen'
        exact hlen' rfl
      have hge : (500 : ℚ) ≤ meanAbsAmplitude samples := by
        by_contra hcontra
        push_neg at hcontra
        exact hE ((mean_abs_lt_iff samples 500 hne).mpr (by exact_mod_cast hcontra))
      have hw : w = ⟨@decide (voiceEnergy sr samples > 1000) (Classical.propDecidable _),
          true⟩ := by
        rw [analyze_for_wake_word, if_neg hE, if_neg hlen'] at h
        exact (Except.ok.injEq _ _).mp h.symm
      subst hw
      constructor
      · constructor
        · intro hv
          exact ⟨hge, of_decide_eq_true hv⟩
        · intro hc
          exact decide_eq_true hc.2
      · intro hcontra
        exact absurd hcontra (not_lt.mpr hge)

/-- Witness for C7: the one-sample zero chunk, rejected by stage one
without the transform being evaluated. -/
theorem wake_gate_two_stage_witness :
    ((⟨false, false⟩ : WakeAnalysis).detected = true ↔
      (500 ≤ meanAbsAmplitude [0] ∧ voiceEnergy 16000 [0] > 1000)) ∧
    (meanAbsAmplitude [0] < 500 → (⟨false, false⟩ : WakeAnalysis).fft_computed = false) :=
  wake_gate_two_stage 16000 [0] ⟨false, false⟩ (by
    simp [analyze_for_wake_word, mean_abs_lt, sumAbs])

/-- Counterexample for C8: a one-byte chunk (odd length, as a truncated
final read can produce) makes `np.frombuffer(-, dtype=np.int16)` raise
`ValueError` in both the VAD path and the wake-word path, so the per-chunk
processing does not complete for chunks of arbitrary byte length. -/
theorem odd_chunk_raises :
    is_silence_bytes [0] = .error "buffer size must be a multiple of element size" ∧
    analyze_bytes 16000 [0] = .error "buffer size must be a multiple of element size" :=
  ⟨rfl, rfl⟩

/-- Decoding succeeds exactly on even byte lengths, with one sample per
byte pair. -/
lemma frombuffer_even_ok :
    ∀ (bytes : List Nat), bytes.length % 2 = 0 →
      ∃ s, np_frombuffer_int16 bytes = .ok s ∧ s.length * 2 = bytes.length
  | [], _ => ⟨[], rfl, rfl⟩
  | [_], h => absurd h (by simp)
  | lo :: hi :: rest, h => by
      have h' : rest.length % 2 = 0 := by
        simp only [List.length_cons] at h
        omega
      obtain ⟨s, hs, hl⟩ := frombuffer_even_ok rest h'
      refine ⟨int16OfBytes lo hi :: s, ?_, ?_⟩
      · simp only [np_frombuffer_int16, hs]
        rfl
      · simp only [List.length_cons]
        omega

/-- On any nonempty sample chunk the wake-word gate returns a value (no
exception): either stage one rejects, or the transform is evaluated. -/
lemma analyze_ok (sr : Nat) (s : List Int) (hne : s ≠ []) :
    ∃ w, analyze_for_wake_word sr s = .ok w := by
  by_cases hE : mean_abs_lt s 500 = true
  · exact ⟨⟨false, false⟩, by rw [analyze_for_wake_word, if_pos hE]⟩
  · have hlen : ¬ s.length = 0 := fun h => hne (List.length_eq_zero.mp h)
    exact ⟨_, by rw [analyze_for_wake_word, if_neg hE, if_neg hlen]⟩

/-- C8 (amended).  For every chunk whose byte length is even — every
well-formed int16 buffer, including those shorter than the nominal chunk
size — the VAD path completes without exception; the wake-word path also
completes whenever the chunk is in addition nonempty (the empty chunk
reaches `np.fft.rfft`, which raises on zero data points, and an odd byte
length raises in `np.frombuffer`, per the counterexample). -/
theorem even_chunks_no_exception (bytes : List Nat) (sr : Nat)
    (heven : bytes.length % 2 = 0) :
    (∃ b, is_silence_bytes bytes = .ok b) ∧
    (bytes ≠ [] → ∃ w, analyze_bytes sr bytes = .ok w) := by
  obtain ⟨s, hs, hl⟩ := frombuffer_even_ok bytes heven
  constructor
  · exact ⟨is_silence s, by rw [is_silence_bytes, hs]; rfl⟩
  · intro hne
    have hlen : ¬ bytes.length = 0 := fun h => hne (List.length_eq_zero.mp h)
    have hsne : s ≠ [] := by
      intro hnil
      rw [hnil] at hl
      simp at hl
      exact hlen hl.symm
    obtain ⟨w, hw⟩ := analyze_ok sr s hsne
    exact ⟨w, by rw [analyze_bytes, hs]; exact hw⟩

/-- Witness for C8 (amended): the two-byte zero chunk. -/
theorem even_chunks_no_exception_witness :
    (∃ b, is_silence_bytes [0, 0] = .ok b) ∧
    (([0, 0] : List Nat) ≠ [] → ∃ w, analyze_bytes 16000 [0, 0] = .ok w) :=
  even_chunks_no_exception [0, 0] 16000 (by decide)

/-- C9.  When no audio backend imports successfully, initialization
completes (the model is total: every exception path is caught and ends in
simulator mode), the capture loop enters simulator mode and produces no
chunks, and a backend exception during capture is swallowed rather than
propagated, so no error in this core is fatal. -/
theorem no_backend_simulator_idle :
    (init_audio (fun _ => false)).simulator_mode = true ∧
    (∀ run, continuous_capture (init_audio (fun _ => false)) run = []) ∧
    (∀ r e, continuous_capture r (.error e) = []) := by
  refine ⟨rfl, fun run => rfl, fun r e => ?_⟩
  by_cases h : r.simulator_mode = true <;> simp [continuous_capture, h]

end Lewisia
